import Mathlib

/-!
Verification of the agent execution engine of `src/agents/research-agent.ts`
(single-file ReAct research agent).

Strings are modelled as `List Char`.  The JavaScript regular expressions used
by `runAgent` are modelled by explicit leftmost-match scanning functions whose
behaviour matches the source regexes on the fragments the engine uses:

  * `/Answer:\s*([\s\S]*?)$/`   -> `parseAnswer` (trimmed text after the first
    occurrence of the marker, to the end of the reply);
  * `/Thought:\s*([\s\S]*?)(?=\n\n|$)/` -> `parseThought`;
  * `/Action:\s*([^\[]+)\[([^\]]+)\]/`  -> `findAction` (leftmost match; the
    tool name is the run of characters between the marker and the first
    following opening bracket, the input the run of characters inside the
    first bracket pair; both are trimmed by the source before use).

The LLM provider is modelled as an oracle `Nat -> Except err reply` giving the
result of each successive completion call, and each tool's `run` as a function
`List Char -> Except err result` (`Except.error` models a thrown exception).
Whitespace is modelled as the ASCII whitespace characters.
-/

-- ===== string utilities =====

/-- Whitespace test modelling the characters matched by the source's `\s` and
removed by JavaScript's `String.prototype.trim` (ASCII subset). -/
def isWs (c : Char) : Bool :=
  c = ' ' || c = '\t' || c = '\n' || c = '\r' || c = '\x0b' || c = '\x0c'

/-- Model of JavaScript `String.prototype.trim`. -/
def trimList (s : List Char) : List Char :=
  ((s.dropWhile isWs).reverse.dropWhile isWs).reverse

/-- Model of JavaScript `String.prototype.toLowerCase` (used for the
case-insensitive tool lookup in `runAgent`). -/
def lowerStr (s : List Char) : List Char :=
  s.map Char.toLower

/-- The text after the first occurrence of `pat` in `s`, if `pat` occurs.
Models the position at which a JavaScript regex beginning with the literal
`pat` finds its leftmost match. -/
def suffixAfterFirst (pat : List Char) : List Char → Option (List Char)
  | [] => none
  | c :: rest =>
    if pat.isPrefixOf (c :: rest) then some (List.drop pat.length (c :: rest))
    else suffixAfterFirst pat rest

/-- The prefix of `s` up to (exclusive) the first position where two
consecutive newline characters follow; models the lookahead `(?=\n\n|$)`. -/
def upToDoubleNL : List Char → List Char
  | [] => []
  | '\n' :: '\n' :: _ => []
  | c :: rest => c :: upToDoubleNL rest

-- ===== response parsing (the regex matches of runAgent) =====

/-- Model of `assistantReply.match(/Answer:\s*([\s\S]*?)$/)` followed by the
source's `.trim()` of the captured group: the trimmed text after the first
`Answer:` marker, through the end of the reply. -/
def parseAnswer (reply : List Char) : Option (List Char) :=
  (suffixAfterFirst (("Answer:").data) reply).map trimList

/-- Model of `assistantReply.match(/Thought:\s*([\s\S]*?)(?=\n\n|$)/)` followed
by `.trim()` of the captured group. -/
def parseThought (reply : List Char) : Option (List Char) :=
  (suffixAfterFirst (("Thought:").data) reply).map
    (fun after => trimList (upToDoubleNL (after.dropWhile isWs)))

/-- One attempt of the `Action` regex at a fixed position (just after an
`Action:` marker): the tool-name group is the non-empty run of characters up
to the first `[`, the input group the non-empty run of characters inside the
first `[...]`.  Both groups are trimmed, as the source does at lines 335-336. -/
def tryActionAt (after : List Char) : Option (List Char × List Char) :=
  let nm := after.span (fun c => c ≠ '[')
  match nm.2 with
  | '[' :: rest2 =>
    if nm.1 = [] then none
    else
      let inp := rest2.span (fun c => c ≠ ']')
      match inp.2 with
      | ']' :: _ => if inp.1 = [] then none else some (trimList nm.1, trimList inp.1)
      | _ => none
  | _ => none

/-- Model of `assistantReply.match(/Action:\s*([^\[]+)\[([^\]]+)\]/)` (leftmost
match), returning the trimmed `toolName` and `toolInput` of lines 335-336. -/
def findAction : List Char → Option (List Char × List Char)
  | [] => none
  | c :: rest =>
    if (("Action:").data).isPrefixOf (c :: rest) then
      match tryActionAt (List.drop 7 (c :: rest)) with
      | some r => some r
      | none => findAction rest
    else findAction rest

-- ===== data model =====

/-- `ChatMessage.role` of the source. -/
inductive Role where
  | system
  | user
  | assistant
deriving DecidableEq

/-- `ChatMessage` of the source. -/
structure Message where
  role : Role
  content : List Char
deriving DecidableEq

/-- A `Tool` of the source: `run` may fail (`Except.error` models a thrown
exception whose message is the payload). -/
structure Tool where
  name : List Char
  description : List Char
  run : List Char → Except (List Char) (List Char)

-- ===== fixed strings of runAgent =====

/-- Configured maximum reasoning steps (`MAX_STEPS`, line 62). -/
def MAX_STEPS : Nat := 10

/-- Error message thrown on an empty assistant reply with no fallback
available (lines 285-288). -/
def emptyReplyMsg : List Char :=
  ("Empty response from assistant and no fallback available").data

/-- Error message thrown at step-limit exhaustion with no fallback
available (lines 419-421). -/
def stepLimitMsg : List Char :=
  ("Agent did not produce a final answer within the step limit.").data

/-- The observation recorded for an unregistered tool name (line 345). -/
def toolNotFound (name : List Char) : List Char :=
  ("Tool \"").data ++ name ++ ("\" not found").data

/-- The observation recorded when a tool's `run` throws (line 353). -/
def errObs (msg : List Char) : List Char :=
  ("Error: ").data ++ msg

/-- The content of the system message appended after a tool dispatch
(lines 364-367). -/
def obsMsg (o : List Char) : List Char :=
  ("Observation: ").data ++ o

/-- The fallback answer built from the last observation (used at lines 279,
313, 376, 394 and 412). -/
def obsFallback (o : List Char) : List Char :=
  ("Based on research, here\x27s what I found:\n\n").data ++ o

/-- The fallback answer built from the accumulated partial answer (lines 283,
317, 380, 398 and 416). -/
def paFallback (p : List Char) : List Char :=
  ("Based on partial research, here\x27s what I found:\n\n").data ++ p

-- ===== system prompt and initial transcript =====

/-- `toolDescriptions` (lines 157-159). -/
def toolDescriptions (tools : List Tool) : List Char :=
  (List.intercalate (("\n").data)
    (tools.map (fun t => t.name ++ (": ").data ++ t.description)))

/-- The system prompt of lines 162-179 (a function of the registered tools,
as in the source). -/
def systemPrompt (tools : List Tool) : List Char :=
  ("You are a research assistant, tasked with providing comprehensive, well-researched answers to questions.\n\nYou have access to the following tools:\n").data
  ++ toolDescriptions tools
  ++ ("\n\nWhen answering the user, you MUST use the tools to access research information to build your research report.\nFollow this format strictly:\nThought: <your reasoning here>\nAction: <ToolName>[<tool input>]\nObservation: <result of the tool action>\n... (you can repeat Thought/Action/Observation as needed) ...\nThought: <final reasoning>\nAnswer: <your final answer to the user\x27s query>\n\nYour final answer MUST begin with \"Answer: \" and should be comprehensive and detailed.\nOnly provide one action at a time, and wait for the observation before continuing.\nYou MUST use at least one tool before providing your final answer.\n").data

/-- The initial transcript of `runAgent` (lines 257-260). -/
def initMsgs (tools : List Tool) (query : List Char) : List Message :=
  [⟨Role.system, systemPrompt tools⟩, ⟨Role.user, query⟩]

-- ===== the agent loop (runAgent, lines 256-422) =====

/-- The final outcome of a run: a returned answer string, or a thrown error
(with its message). -/
inductive RunOutcome where
  | answer (text : List Char)
  | failure (msg : List Char)
deriving DecidableEq

/-- The fallback resolution used throughout `runAgent`: the last observation
if non-empty (checked with JavaScript truthiness plus a length check), else
the accumulated partial answer if non-empty, else nothing. -/
def fb2 (lastObs pa : List Char) : Option (List Char) :=
  if lastObs ≠ [] then some (obsFallback lastObs)
  else if pa ≠ [] then some (paFallback pa)
  else none

/-- Fallback resolution that falls back to a given terminal outcome, as at
lines 274-288, 386-401 and 405-421. -/
def fb2Or (lastObs pa : List Char) (otherwise : RunOutcome) : RunOutcome :=
  match fb2 lastObs pa with
  | some t => RunOutcome.answer t
  | none => otherwise

/-- The partial-answer update of lines 323-328: if the reply has a `Thought:`
segment with non-empty trimmed content, append it to the partial answer after
a blank line. -/
def paUpdate (reply pa : List Char) : List Char :=
  match parseThought reply with
  | some t => if t ≠ [] then pa ++ ("\n\n").data ++ t else pa
  | none => pa

/-- The result of one iteration of the `for` loop of `runAgent`:
either the run terminates (`done`, with the outcome, the transcript, and
whether this iteration appended the assistant reply to the transcript), or
the loop continues (`next`, with the new transcript, last observation and
partial answer, and the tool invocations `(name, input)` performed). -/
inductive IterOut where
  | done (outcome : RunOutcome) (msgs : List Message) (appended : Bool)
  | next (msgs : List Message) (lastObs pa : List Char)
      (calls : List (List Char × List Char))
deriving DecidableEq

/-- Tool dispatch (lines 339-369): case-insensitive lookup; an unregistered
name yields a `Tool "<name>" not found` observation; a throwing `run` yields
an `Error: <message>` observation; a successful `run` records its result as
the new last observation.  The observation is appended as a system message
and the loop always continues. -/
def dispatchStep (tools : List Tool) (nm inp : List Char)
    (msgs1 : List Message) (lastObs pa1 : List Char) : IterOut :=
  match tools.find? (fun t => lowerStr t.name = lowerStr nm) with
  | none =>
    IterOut.next (msgs1 ++ [⟨Role.system, obsMsg (toolNotFound nm)⟩]) lastObs pa1 []
  | some tool =>
    match tool.run inp with
    | Except.ok result =>
      IterOut.next (msgs1 ++ [⟨Role.system, obsMsg result⟩]) result pa1 [(nm, inp)]
    | Except.error m =>
      IterOut.next (msgs1 ++ [⟨Role.system, obsMsg (errObs m)⟩]) lastObs pa1 [(nm, inp)]

/-- Lines 322-385: the part of an iteration after the answer check has fallen
through — record any `Thought` into the partial answer, then dispatch an
`Action` if present, else resolve by fallback or return the trimmed reply. -/
def iterCont (tools : List Tool) (r : List Char) (msgs1 : List Message)
    (lastObs pa : List Char) : IterOut :=
  let pa1 := paUpdate r pa
  match findAction r with
  | some (nm, inp) => dispatchStep tools nm inp msgs1 lastObs pa1
  | none =>
    match fb2 lastObs pa1 with
    | some t => IterOut.done (RunOutcome.answer t) msgs1 true
    | none => IterOut.done (RunOutcome.answer (trimList r)) msgs1 true

/-- Lines 274-385: one iteration on a successful completion reply `r`. -/
def iterOk (tools : List Tool) (r : List Char) (msgs : List Message)
    (lastObs pa : List Char) : IterOut :=
  if trimList r = [] then
    IterOut.done (fb2Or lastObs pa (RunOutcome.failure emptyReplyMsg)) msgs false
  else
    let msgs1 := msgs ++ [⟨Role.assistant, r⟩]
    match parseAnswer r with
    | some a =>
      if a = [] then
        match fb2 lastObs pa with
        | some t => IterOut.done (RunOutcome.answer t) msgs1 true
        | none => iterCont tools r msgs1 lastObs pa
      else IterOut.done (RunOutcome.answer a) msgs1 true
    | none => iterCont tools r msgs1 lastObs pa

/-- One iteration of the `for` loop of `runAgent` (lines 267-403).  A failed
completion call (`Except.error`) is handled by the `catch` of lines 386-402:
fallback if available, else the error propagates. -/
def iter (tools : List Tool) (reply : Except (List Char) (List Char))
    (msgs : List Message) (lastObs pa : List Char) : IterOut :=
  match reply with
  | Except.error e => IterOut.done (fb2Or lastObs pa (RunOutcome.failure e)) msgs false
  | Except.ok r => iterOk tools r msgs lastObs pa

/-- The observable trace of a run: its outcome, the final transcript, the
tool invocations performed (name and input actually passed to `run`), the
number of completion calls made, the number of iterations that processed a
non-empty reply (each appends exactly one assistant message), and the number
of tool dispatches (each appends exactly one observation message). -/
structure RunTrace where
  outcome : RunOutcome
  messages : List Message
  toolCalls : List (List Char × List Char)
  completions : Nat
  okReplies : Nat
  dispatches : Nat
deriving DecidableEq

/-- Accounting for an iteration that continued the loop: one more completion
call, one more appended reply, one more dispatch. -/
def mkCont (calls : List (List Char × List Char)) (t : RunTrace) : RunTrace :=
  ⟨t.outcome, t.messages, calls ++ t.toolCalls,
   t.completions + 1, t.okReplies + 1, t.dispatches + 1⟩

/-- The step-bounded loop of `runAgent` (lines 267-421), with `fuel` the
number of remaining steps and `idx` the index of the next completion call.
At fuel 0 (step-limit exhaustion, lines 405-421) the run resolves by fallback
or fails with `stepLimitMsg`. -/
def loop (tools : List Tool) (replies : Nat → Except (List Char) (List Char)) :
    Nat → Nat → List Message → List Char → List Char → RunTrace
  | 0, _, msgs, lastObs, pa =>
    ⟨fb2Or lastObs pa (RunOutcome.failure stepLimitMsg), msgs, [], 0, 0, 0⟩
  | fuel + 1, idx, msgs, lastObs, pa =>
    match iter tools (replies idx) msgs lastObs pa with
    | IterOut.done outc m' app => ⟨outc, m', [], 1, if app then 1 else 0, 0⟩
    | IterOut.next m' lo' pa' cs => mkCont cs (loop tools replies fuel (idx + 1) m' lo' pa')

/-- `runAgent` (lines 256-422): the transcript starts with the system prompt
and the user query; `lastObservation` is reset to the empty string (line 263)
and `partialAnswer` starts empty (line 264). -/
def runAgent (tools : List Tool) (replies : Nat → Except (List Char) (List Char))
    (query : List Char) : RunTrace :=
  loop tools replies MAX_STEPS 0 (initMsgs tools query) [] []

-- ===== the completion client (callOpenRouter, lines 192-249) =====

/-- `MAX_RETRIES` (line 65). -/
def MAX_RETRIES : Nat := 3

/-- `RETRY_DELAY_MS` (line 66). -/
def RETRY_DELAY_MS : Nat := 1000

/-- The outcome of one HTTP attempt against the provider: a successful
response with the assistant's content, a non-ok response with a status and
error body, or a thrown transport/parse error. -/
inductive HttpAttempt where
  | ok (content : List Char)
  | err (status : Nat) (body : List Char)
  | exn (msg : List Char)
deriving DecidableEq

/-- The error message built at line 229 for a non-ok response. -/
def apiErrorMsg (status : Nat) (body : List Char) : List Char :=
  ("API error (").data ++ (Nat.repr status).data ++ ("): ").data ++ body

/-- Retryable per the check at line 219: rate limiting or a server error. -/
def isRetryable : HttpAttempt → Bool
  | HttpAttempt.err status _ => status == 429 || status ≥ 500
  | _ => false

/-- The message of the throw after the `while` loop (line 248). -/
def failedAfterMsg : List Char :=
  ("Failed to call OpenRouter API after 4 attempts").data

/-- The observable result of `callOpenRouter`: the returned content or thrown
error, the number of HTTP attempts made, and the backoff delays (in ms)
slept before each retry. -/
structure CallResult where
  result : Except (List Char) (List Char)
  attempts : Nat
  delays : List Nat

/-- The `while (retries <= MAX_RETRIES)` loop of `callOpenRouter`
(lines 193-248), with the provider modelled as an oracle over attempt
indices.  Note that the `throw` at line 229 for a non-retryable status sits
inside the `try` block, so the `catch` at line 234 catches it, increments
`retries`, sleeps `RETRY_DELAY_MS * retries` and retries — exactly as for a
retryable status.  `fuel` bounds the recursion; the loop body increments
`retries` on every failed attempt, so `MAX_RETRIES + 2` fuel is never
exhausted. -/
def callGo (provider : Nat → HttpAttempt) : Nat → Nat → Nat → CallResult
  | 0, _, _ => ⟨Except.error failedAfterMsg, 0, []⟩
  | fuel + 1, idx, retries =>
    if retries > MAX_RETRIES then ⟨Except.error failedAfterMsg, 0, []⟩
    else
      match provider idx with
      | HttpAttempt.ok content => ⟨Except.ok content, 1, []⟩
      | HttpAttempt.err status body =>
        let e := apiErrorMsg status body
        if status == 429 || status ≥ 500 then
          if retries + 1 ≤ MAX_RETRIES then
            let rest := callGo provider fuel (idx + 1) (retries + 1)
            ⟨rest.result, rest.attempts + 1, RETRY_DELAY_MS * (retries + 1) :: rest.delays⟩
          else ⟨Except.error e, 1, []⟩
        else
          if retries + 1 ≤ MAX_RETRIES then
            let rest := callGo provider fuel (idx + 1) (retries + 1)
            ⟨rest.result, rest.attempts + 1, RETRY_DELAY_MS * (retries + 1) :: rest.delays⟩
          else ⟨Except.error e, 1, []⟩
      | HttpAttempt.exn m =>
        if retries + 1 ≤ MAX_RETRIES then
          let rest := callGo provider fuel (idx + 1) (retries + 1)
          ⟨rest.result, rest.attempts + 1, RETRY_DELAY_MS * (retries + 1) :: rest.delays⟩
        else ⟨Except.error m, 1, []⟩

/-- `callOpenRouter` (lines 192-249). -/
def callOpenRouter (provider : Nat → HttpAttempt) : CallResult :=
  callGo provider (MAX_RETRIES + 2) 0 0

-- ===== module-level lastObservation: interleaved runs (lines 184-185) =====

/-- The per-run local state of one `runAgent` invocation: its own transcript
and partial answer (both locals of `runAgent`), remaining steps and next
completion-call index.  `lastObservation` is NOT here: in the source it is a
module-level variable (line 185) shared by all in-flight runs. -/
structure RunLocal where
  msgs : List Message
  pa : List Char
  fuel : Nat
  idx : Nat
deriving DecidableEq

/-- The phase of one run: not yet started, mid-loop, or finished with an
outcome. -/
inductive RunPhase where
  | pending
  | active (st : RunLocal)
  | finished (out : RunOutcome)
deriving DecidableEq

/-- One atomic step of a run against the shared module-level
`lastObservation` `g`: starting a run builds its transcript and resets the
global to the empty string (line 263); an active run performs one loop
iteration reading and possibly writing the global; a finished run is inert.
Returns the new phase and the new value of the global. -/
def advance (tools : List Tool) (replies : Nat → Except (List Char) (List Char))
    (query : List Char) (g : List Char) : RunPhase → RunPhase × List Char
  | RunPhase.pending => (RunPhase.active ⟨initMsgs tools query, [], MAX_STEPS, 0⟩, [])
  | RunPhase.active st =>
    match st.fuel with
    | 0 => (RunPhase.finished (fb2Or g st.pa (RunOutcome.failure stepLimitMsg)), g)
    | fuel + 1 =>
      match iter tools (replies st.idx) st.msgs g st.pa with
      | IterOut.done outc _ _ => (RunPhase.finished outc, g)
      | IterOut.next m' lo' pa' _ => (RunPhase.active ⟨m', pa', fuel, st.idx + 1⟩, lo')
  | RunPhase.finished out => (RunPhase.finished out, g)

/-- `advance` applied `n` times to a single run. -/
def advanceN (tools : List Tool) (replies : Nat → Except (List Char) (List Char))
    (query : List Char) : Nat → RunPhase × List Char → RunPhase × List Char
  | 0, s => s
  | n + 1, s => advanceN tools replies query n (advance tools replies query s.2 s.1)

/-- Two in-flight runs sharing the module-level `lastObservation`. -/
structure Sys where
  g : List Char
  r1 : RunPhase
  r2 : RunPhase
deriving DecidableEq

/-- Advance one of the two runs (chosen by `who`) by one atomic step. -/
def sysStep (tools : List Tool)
    (rep1 rep2 : Nat → Except (List Char) (List Char)) (q1 q2 : List Char)
    (s : Sys) (who : Bool) : Sys :=
  if who then
    let p := advance tools rep1 q1 s.g s.r1
    ⟨p.2, p.1, s.r2⟩
  else
    let p := advance tools rep2 q2 s.g s.r2
    ⟨p.2, s.r1, p.1⟩

/-- Run a schedule of interleaved steps of the two runs. -/
def sysExec (tools : List Tool)
    (rep1 rep2 : Nat → Except (List Char) (List Char)) (q1 q2 : List Char) :
    List Bool → Sys → Sys
  | [], s => s
  | w :: ws, s => sysExec tools rep1 rep2 q1 q2 ws (sysStep tools rep1 rep2 q1 q2 s w)

-- ===== concrete fixtures used by witnesses and counterexamples =====

/-- A simple echoing tool used to exercise dispatch. -/
def echoT : Tool :=
  ⟨("Echo").data, ("echo tool").data, fun s => Except.ok (("E:").data ++ s)⟩

/-- A tool whose `run` always throws. -/
def boomT : Tool :=
  ⟨("Boom").data, ("boom tool").data, fun _ => Except.error (("boom failed").data)⟩

/-- A tool returning a fixed observation `obs`. -/
def obsTool (obs : List Char) : Tool :=
  ⟨("Echo").data, ("echo tool").data, fun _ => Except.ok obs⟩

/-- A reply script that always asks for the `Echo` tool. -/
def actReplies : Nat → Except (List Char) (List Char) :=
  fun _ => Except.ok (("Action: Echo[x]").data)

/-- A reply script that always returns an empty reply. -/
def emptyReplies : Nat → Except (List Char) (List Char) :=
  fun _ => Except.ok []

/-- A reply containing both an `Action:` segment and a non-empty `Answer:`
segment. -/
def c1reply : List Char := ("Action: Echo[x]\nAnswer: done").data

/-- Constant reply script for `c1reply`. -/
def c1reps : Nat → Except (List Char) (List Char) := fun _ => Except.ok c1reply

/-- Reply script: first an unknown tool, then a throwing tool. -/
def c5reps : Nat → Except (List Char) (List Char) :=
  fun i => if i = 0 then Except.ok (("Action: Missing[x]").data)
           else Except.ok (("Action: Boom[y]").data)

/-- A well-formed `Action:` reply built from a tool name and an input. -/
def actionReply (n i : List Char) : List Char :=
  ("Action: ").data ++ n ++ '[' :: (i ++ [']'])

/-- Constant reply script asking for `Echo` with a padded input. -/
def c6reps : Nat → Except (List Char) (List Char) :=
  fun _ => Except.ok (actionReply (("Echo").data) ((" 2+2 ").data))

/-- Provider: two retryable failures, then success. -/
def prov7 : Nat → HttpAttempt :=
  fun i => if i < 2 then HttpAttempt.err 429 (("rate").data)
           else HttpAttempt.ok (("hi").data)

/-- Reply script of the first interleaved run. -/
def c8rep1 : Nat → Except (List Char) (List Char) :=
  fun _ => Except.ok (("Answer: done").data)

/-- Reply script of the second interleaved run: a successful tool action,
then a whitespace-only answer (which resolves via the fallback state). -/
def c8rep2 : Nat → Except (List Char) (List Char) :=
  fun i => if i = 0 then Except.ok (("Action: Echo[b]").data)
           else Except.ok (("Answer:   ").data)

-- ===== helper lemmas =====

/-- Members failing the predicate survive `dropWhile`. -/
theorem mem_dropWhile_of_neg (p : Char → Bool) :
    ∀ (l : List Char) (c : Char), c ∈ l → p c = false → c ∈ l.dropWhile p := by
  intro l
  induction l with
  | nil => intro c hc _; cases hc
  | cons x xs ih =>
    intro c hc hp
    rw [List.dropWhile_cons]
    by_cases hx : p x = true
    · rw [if_pos hx]
      rcases List.mem_cons.mp hc with h | h
      · rw [h] at hp; rw [hx] at hp; cases hp
      · exact ih c h hp
    · rw [if_neg hx]
      exact hc

/-- If the trimmed string is empty, every character is whitespace. -/
theorem allWs_of_trimList_nil :
    ∀ (s : List Char), trimList s = [] → ∀ c ∈ s, isWs c = true := by
  intro s h c hc
  by_contra hno
  have hb : isWs c = false := by
    cases hcc : isWs c
    · rfl
    · exact absurd hcc hno
  unfold trimList at h
  rw [List.reverse_eq_nil_iff, List.dropWhile_eq_nil_iff] at h
  have h1 : c ∈ s.dropWhile isWs := mem_dropWhile_of_neg isWs s c hc hb
  have h2 : c ∈ (s.dropWhile isWs).reverse := List.mem_reverse.mpr h1
  have h3 := h c h2
  rw [hb] at h3
  cases h3

/-- A string containing a non-whitespace character has a non-empty trim. -/
theorem trimList_ne_nil {s : List Char} {c : Char} (hc : c ∈ s) (hw : isWs c = false) :
    trimList s ≠ [] := by
  intro h
  have := allWs_of_trimList_nil s h c hc
  rw [hw] at this
  cases this

/-- `suffixAfterFirst` succeeds only if the head of the pattern occurs. -/
theorem mem_of_suffixAfterFirst (a : Char) (pat : List Char) :
    ∀ (s t : List Char), suffixAfterFirst (a :: pat) s = some t → a ∈ s := by
  intro s
  induction s with
  | nil => intro t h; simp [suffixAfterFirst] at h
  | cons c rest ih =>
    intro t h
    rw [suffixAfterFirst] at h
    by_cases hp : (a :: pat).isPrefixOf (c :: rest) = true
    · obtain ⟨u, hu⟩ := List.isPrefixOf_iff_prefix.mp hp
      rw [List.cons_append] at hu
      injection hu with h1 _
      rw [h1]
      exact List.mem_cons_self c rest
    · rw [if_neg hp] at h
      exact List.mem_cons.mpr (Or.inr (ih t h))

/-- `parseAnswer` succeeding implies the reply's trim is non-empty. -/
theorem trim_ne_of_parseAnswer {r a : List Char} (h : parseAnswer r = some a) :
    trimList r ≠ [] := by
  unfold parseAnswer at h
  cases hs : suffixAfterFirst ((("Answer:").data)) r with
  | none => rw [hs] at h; cases h
  | some t =>
    have heq : (("Answer:").data) = 'A' :: (("nswer:").data) := rfl
    rw [heq] at hs
    exact trimList_ne_nil (mem_of_suffixAfterFirst 'A' ((("nswer:").data)) r t hs) (by decide)

/-- `findAction` succeeding implies the reply contains a non-whitespace
character. -/
theorem mem_of_findAction :
    ∀ (r : List Char) (v : List Char × List Char), findAction r = some v → 'A' ∈ r := by
  intro r
  induction r with
  | nil => intro v h; simp [findAction] at h
  | cons c rest ih =>
    intro v h
    rw [findAction] at h
    by_cases hp : ((("Action:").data)).isPrefixOf (c :: rest) = true
    · obtain ⟨u, hu⟩ := List.isPrefixOf_iff_prefix.mp hp
      have heq : (("Action:").data) = 'A' :: (("ction:").data) := rfl
      rw [heq, List.cons_append] at hu
      injection hu with h1 _
      rw [h1]
      exact List.mem_cons_self c rest
    · rw [if_neg hp] at h
      exact List.mem_cons.mpr (Or.inr (ih v h))

/-- `findAction` succeeding implies the reply's trim is non-empty. -/
theorem trim_ne_of_findAction {r : List Char} {v : List Char × List Char}
    (h : findAction r = some v) : trimList r ≠ [] :=
  trimList_ne_nil (mem_of_findAction r v h) (by decide)

/-- The observation fallback text is never empty. -/
theorem obsFallback_ne_nil (o : List Char) : obsFallback o ≠ [] := by
  intro h
  exact absurd (List.append_eq_nil.mp h).1 (by decide)

/-- The partial-answer fallback text is never empty. -/
theorem paFallback_ne_nil (p : List Char) : paFallback p ≠ [] := by
  intro h
  exact absurd (List.append_eq_nil.mp h).1 (by decide)

/-- A successful fallback resolution is never empty. -/
theorem fb2_some_ne_nil {lo pa t : List Char} (h : fb2 lo pa = some t) : t ≠ [] := by
  unfold fb2 at h
  by_cases h1 : lo ≠ []
  · rw [if_pos h1] at h
    injection h with h2
    rw [← h2]
    exact obsFallback_ne_nil lo
  · rw [if_neg h1] at h
    by_cases h2 : pa ≠ []
    · rw [if_pos h2] at h
      injection h with h3
      rw [← h3]
      exact paFallback_ne_nil pa
    · rw [if_neg h2] at h
      cases h

/-- `dispatchStep` always continues the loop. -/
theorem dispatchStep_ne_done (tools : List Tool) (nm inp : List Char)
    (msgs1 : List Message) (lastObs pa1 : List Char)
    (outc : RunOutcome) (m : List Message) (app : Bool) :
    dispatchStep tools nm inp msgs1 lastObs pa1 ≠ IterOut.done outc m app := by
  intro h
  unfold dispatchStep at h
  split at h
  · exact IterOut.noConfusion h
  · split at h
    · exact IterOut.noConfusion h
    · exact IterOut.noConfusion h

/-- If `dispatchStep` continues, the transcript gains exactly one system
message carrying an `Observation: `-prefixed content. -/
theorem dispatchStep_next_shape {tools : List Tool} {nm inp : List Char}
    {msgs1 : List Message} {lastObs pa1 : List Char} {m' : List Message}
    {lo' pa' : List Char} {cs : List (List Char × List Char)}
    (h : dispatchStep tools nm inp msgs1 lastObs pa1 = IterOut.next m' lo' pa' cs) :
    ∃ o, m' = msgs1 ++ [⟨Role.system, obsMsg o⟩] := by
  unfold dispatchStep at h
  split at h
  · injection h with h1 h2 h3 h4
    exact ⟨toolNotFound nm, h1.symm⟩
  · split at h
    · injection h with h1 h2 h3 h4
      exact ⟨_, h1.symm⟩
    · injection h with h1 h2 h3 h4
      exact ⟨errObs _, h1.symm⟩

/-- If `iterCont` terminates the run, the transcript is unchanged (it already
contains the assistant reply). -/
theorem iterCont_done_shape {tools : List Tool} {r : List Char}
    {msgs1 : List Message} {lastObs pa : List Char} {outc : RunOutcome}
    {m' : List Message} {app : Bool}
    (h : iterCont tools r msgs1 lastObs pa = IterOut.done outc m' app) :
    app = true ∧ m' = msgs1 := by
  simp only [iterCont] at h
  split at h
  · exact absurd h (dispatchStep_ne_done _ _ _ _ _ _ _ _ _)
  · split at h
    · injection h with h1 h2 h3
      exact ⟨h3.symm, h2.symm⟩
    · injection h with h1 h2 h3
      exact ⟨h3.symm, h2.symm⟩

/-- If `iterCont` continues, the transcript gains exactly one system
observation message. -/
theorem iterCont_next_shape {tools : List Tool} {r : List Char}
    {msgs1 : List Message} {lastObs pa : List Char} {m' : List Message}
    {lo' pa' : List Char} {cs : List (List Char × List Char)}
    (h : iterCont tools r msgs1 lastObs pa = IterOut.next m' lo' pa' cs) :
    ∃ o, m' = msgs1 ++ [⟨Role.system, obsMsg o⟩] := by
  simp only [iterCont] at h
  split at h
  · exact dispatchStep_next_shape h
  · split at h
    · exact IterOut.noConfusion h
    · exact IterOut.noConfusion h

/-- If one loop iteration continues, the transcript gains exactly the
assistant reply and one system observation message. -/
theorem iter_next_shape {tools : List Tool}
    {reply : Except (List Char) (List Char)} {msgs : List Message}
    {lastObs pa : List Char} {m' : List Message} {lo' pa' : List Char}
    {cs : List (List Char × List Char)}
    (h : iter tools reply msgs lastObs pa = IterOut.next m' lo' pa' cs) :
    ∃ r o, reply = Except.ok r ∧
      m' = msgs ++ [⟨Role.assistant, r⟩, ⟨Role.system, obsMsg o⟩] := by
  cases reply with
  | error e =>
    simp only [iter] at h
    exact IterOut.noConfusion h
  | ok r =>
    simp only [iter, iterOk] at h
    split at h
    · exact IterOut.noConfusion h
    · split at h
      · split at h
        · split at h
          · exact IterOut.noConfusion h
          · obtain ⟨o, ho⟩ := iterCont_next_shape h
            exact ⟨r, o, rfl, by simp [ho]⟩
        · exact IterOut.noConfusion h
      · obtain ⟨o, ho⟩ := iterCont_next_shape h
        exact ⟨r, o, rfl, by simp [ho]⟩

/-- If one loop iteration terminates, the transcript is unchanged or gains
exactly the assistant reply, according to the `appended` flag. -/
theorem iter_done_shape {tools : List Tool}
    {reply : Except (List Char) (List Char)} {msgs : List Message}
    {lastObs pa : List Char} {outc : RunOutcome} {m' : List Message} {app : Bool}
    (h : iter tools reply msgs lastObs pa = IterOut.done outc m' app) :
    (app = false ∧ m' = msgs) ∨
    (app = true ∧ ∃ r, reply = Except.ok r ∧ m' = msgs ++ [⟨Role.assistant, r⟩]) := by
  cases reply with
  | error e =>
    simp only [iter] at h
    injection h with h1 h2 h3
    exact Or.inl ⟨h3.symm, h2.symm⟩
  | ok r =>
    simp only [iter, iterOk] at h
    split at h
    · injection h with h1 h2 h3
      exact Or.inl ⟨h3.symm, h2.symm⟩
    · split at h
      · split at h
        · split at h
          · injection h with h1 h2 h3
            exact Or.inr ⟨h3.symm, r, rfl, h2.symm⟩
          · rcases iterCont_done_shape h with ⟨happ, hm⟩
            exact Or.inr ⟨happ, r, rfl, hm⟩
        · injection h with h1 h2 h3
          exact Or.inr ⟨h3.symm, r, rfl, h2.symm⟩
      · rcases iterCont_done_shape h with ⟨happ, hm⟩
        exact Or.inr ⟨happ, r, rfl, hm⟩

/-- If `iterCont` terminates with an answer, that answer is non-empty
(fallback texts are prefixed, and the raw-reply return is non-empty when the
reply's trim is). -/
theorem iterCont_done_ne {tools : List Tool} {r : List Char}
    {msgs1 : List Message} {lastObs pa t : List Char} {m : List Message}
    {app : Bool} (htr : trimList r ≠ [])
    (h : iterCont tools r msgs1 lastObs pa = IterOut.done (RunOutcome.answer t) m app) :
    t ≠ [] := by
  simp only [iterCont] at h
  split at h
  · exact absurd h (dispatchStep_ne_done _ _ _ _ _ _ _ _ _)
  · split at h
    · rename_i t0 hfb
      injection h with h1 h2 h3
      injection h1 with h4
      rw [← h4]
      exact fb2_some_ne_nil hfb
    · injection h with h1 h2 h3
      injection h1 with h4
      rw [← h4]
      exact htr

/-- Claim C1: for every assistant reply containing both a non-empty `Answer:`
segment and an `Action: Name[input]` segment, the loop returns the trimmed
text after `Answer:`, appends only the assistant message, invokes no tool,
and makes no further completion call (Answer takes precedence over Action). -/
theorem c1_answer_precedence (tools : List Tool)
    (replies : Nat → Except (List Char) (List Char)) (fuel idx : Nat)
    (msgs : List Message) (lastObs pa r a nm inp : List Char)
    (hrep : replies idx = Except.ok r)
    (hans : parseAnswer r = some a) (hne : a ≠ [])
    (hact : findAction r = some (nm, inp)) :
    loop tools replies (fuel + 1) idx msgs lastObs pa =
      ⟨RunOutcome.answer a, msgs ++ [⟨Role.assistant, r⟩], [], 1, 1, 0⟩ := by
  have htr : trimList r ≠ [] := trim_ne_of_parseAnswer hans
  have hiter : iter tools (replies idx) msgs lastObs pa =
      IterOut.done (RunOutcome.answer a) (msgs ++ [⟨Role.assistant, r⟩]) true := by
    rw [hrep]
    simp [iter, iterOk, hans, htr, hne]
  simp [loop, hiter]

/-- Witness for C1 at a concrete reply carrying both markers. -/
theorem c1_answer_precedence_witness :
    loop [echoT] c1reps 3 0 [] [] [] =
      ⟨RunOutcome.answer (("done").data), [] ++ [⟨Role.assistant, c1reply⟩], [], 1, 1, 0⟩ :=
  c1_answer_precedence [echoT] c1reps 2 0 [] [] [] c1reply (("done").data)
    (("Echo").data) (("x").data) rfl (by decide) (by decide) (by decide)

/-- Claim C2 (amended): at step-limit exhaustion, if the last recorded tool
observation is non-empty the run returns it wrapped in the fallback prefix;
if both the last observation and the partial answer are empty the run fails
with the step-limit error.  The second half exhibits a full run that makes
exactly `MAX_STEPS` completion calls before resolving this way. -/
theorem c2_step_limit_fallback (tools : List Tool)
    (replies : Nat → Except (List Char) (List Char)) (idx : Nat)
    (msgs : List Message) (lastObs pa obs q : List Char) :
    ((lastObs ≠ [] →
        (loop tools replies 0 idx msgs lastObs pa).outcome =
          RunOutcome.answer (obsFallback lastObs)) ∧
     (lastObs = [] → pa = [] →
        (loop tools replies 0 idx msgs lastObs pa).outcome =
          RunOutcome.failure stepLimitMsg)) ∧
    ((runAgent [obsTool obs] actReplies q).completions = MAX_STEPS ∧
     (obs ≠ [] →
        (runAgent [obsTool obs] actReplies q).outcome =
          RunOutcome.answer (obsFallback obs)) ∧
     (obs = [] →
        (runAgent [obsTool obs] actReplies q).outcome =
          RunOutcome.failure stepLimitMsg)) := by
  refine ⟨⟨?_, ?_⟩, rfl, ?_, ?_⟩
  · intro h
    simp [loop, fb2Or, fb2, h]
  · intro h1 h2
    simp [loop, fb2Or, fb2, h1, h2]
  · intro h
    have he : (runAgent [obsTool obs] actReplies q).outcome =
        fb2Or obs [] (RunOutcome.failure stepLimitMsg) := rfl
    rw [he]
    simp [fb2Or, fb2, h]
  · intro h
    have he : (runAgent [obsTool obs] actReplies q).outcome =
        fb2Or obs [] (RunOutcome.failure stepLimitMsg) := rfl
    rw [he]
    simp [fb2Or, fb2, h]

/-- Witness for C2 (amended) at concrete states. -/
theorem c2_step_limit_fallback_witness :
    (loop [] emptyReplies 0 0 [] (("42").data) []).outcome =
      RunOutcome.answer (obsFallback (("42").data)) ∧
    (runAgent [obsTool (("x").data)] actReplies (("q").data)).outcome =
      RunOutcome.answer (obsFallback (("x").data)) :=
  ⟨(c2_step_limit_fallback [] emptyReplies 0 [] (("42").data) [] [] []).1.1 (by decide),
   (c2_step_limit_fallback [] emptyReplies 0 [] (("42").data) [] (("x").data)
      (("q").data)).2.2.1 (by decide)⟩

/-- Counterexample to C2 as stated: a run in which a tool observation IS
recorded on every step (the tool succeeds, returning the empty string, and
the source assigns it to `lastObservation`) still ends in the step-limit
error rather than a fallback-prefixed observation. -/
theorem c2_counterexample :
    (runAgent [obsTool []] actReplies (("q").data)).toolCalls ≠ [] ∧
    (runAgent [obsTool []] actReplies (("q").data)).outcome =
      RunOutcome.failure stepLimitMsg :=
  ⟨by decide, rfl⟩

/-- Claim C3: a whitespace-only `Answer:` is treated as empty: it is never
returned as the run result, and with a non-empty last observation the
iteration terminates with the fallback-prefixed observation (preferring it
over any partial answer). -/
theorem c3_empty_answer_fallback (tools : List Tool) (r : List Char)
    (msgs : List Message) (lastObs pa : List Char)
    (hans : parseAnswer r = some []) :
    (lastObs ≠ [] →
       iter tools (Except.ok r) msgs lastObs pa =
         IterOut.done (RunOutcome.answer (obsFallback lastObs))
           (msgs ++ [⟨Role.assistant, r⟩]) true) ∧
    (∀ (t : List Char) (m : List Message) (app : Bool),
       iter tools (Except.ok r) msgs lastObs pa =
         IterOut.done (RunOutcome.answer t) m app → t ≠ []) := by
  have htr : trimList r ≠ [] := trim_ne_of_parseAnswer hans
  constructor
  · intro hlo
    simp [iter, iterOk, hans, htr, fb2, hlo]
  · intro t m app h
    simp only [iter, iterOk] at h
    split at h
    · rename_i hcond
      exact absurd hcond htr
    · split at h
      · rename_i a heq
        by_cases ha : a = []
        · rw [if_pos ha] at h
          split at h
          · rename_i t0 hfb
            injection h with h1 h2 h3
            injection h1 with h4
            rw [← h4]
            exact fb2_some_ne_nil hfb
          · exact iterCont_done_ne htr h
        · rw [if_neg ha] at h
          rw [hans] at heq
          injection heq with h5
          exact absurd h5.symm ha
      · rename_i heq
        rw [hans] at heq
        cases heq

/-- `takeWhile` runs through a block of satisfying elements and stops at the
first failing one. -/
theorem takeWhile_append_stop (p : Char → Bool) (b : Char) (hb : p b = false) :
    ∀ (xs ys : List Char), (∀ c ∈ xs, p c = true) →
      (xs ++ b :: ys).takeWhile p = xs := by
  intro xs
  induction xs with
  | nil =>
    intro ys _
    simp [List.takeWhile_cons, hb]
  | cons x xs ih =>
    intro ys h
    have hx : p x = true := h x (List.mem_cons_self x xs)
    simp only [List.cons_append, List.takeWhile_cons, hx, if_true]
    rw [ih ys (fun c hc => h c (List.mem_cons.mpr (Or.inr hc)))]

/-- `dropWhile` drops a block of satisfying elements and stops at the first
failing one. -/
theorem dropWhile_append_stop (p : Char → Bool) (b : Char) (hb : p b = false) :
    ∀ (xs ys : List Char), (∀ c ∈ xs, p c = true) →
      (xs ++ b :: ys).dropWhile p = b :: ys := by
  intro xs
  induction xs with
  | nil =>
    intro ys _
    simp [List.dropWhile_cons, hb]
  | cons x xs ih =>
    intro ys h
    have hx : p x = true := h x (List.mem_cons_self x xs)
    simp only [List.cons_append, List.dropWhile_cons, hx, if_true]
    exact ih ys (fun c hc => h c (List.mem_cons.mpr (Or.inr hc)))

/-- Trimming ignores a leading space. -/
theorem trimList_cons_space (s : List Char) : trimList (' ' :: s) = trimList s := by
  unfold trimList
  rw [List.dropWhile_cons]
  simp [isWs]

/-- Evaluation of the Action-regex groups on a well-formed action text: the
name group is everything between the marker and the first `[`, the input
group everything inside the first bracket pair, both trimmed. -/
theorem tryActionAt_eval (n i : List Char) (hn : '[' ∉ n) (hi : ']' ∉ i)
    (hine : i ≠ []) :
    tryActionAt (' ' :: (n ++ '[' :: (i ++ [']']))) =
      some (trimList n, trimList i) := by
  have h1 : (' ' :: (n ++ '[' :: (i ++ [']']))).span (fun c => decide (c ≠ '[')) =
      (' ' :: n, '[' :: (i ++ [']'])) := by
    have he : ' ' :: (n ++ '[' :: (i ++ [']'])) = (' ' :: n) ++ '[' :: (i ++ [']']) := by
      simp
    rw [he, List.span_eq_take_drop,
      takeWhile_append_stop _ '[' (by decide) (' ' :: n) _ ?hall,
      dropWhile_append_stop _ '[' (by decide) (' ' :: n) _ ?hall]
    case hall =>
      intro c hc
      rcases List.mem_cons.mp hc with h | h
      · rw [h]; decide
      · exact decide_eq_true (fun hcc => hn (hcc ▸ h))
  have h2 : (i ++ [']']).span (fun c => decide (c ≠ ']')) = (i, [']']) := by
    have he : i ++ [']'] = i ++ ']' :: [] := rfl
    rw [he, List.span_eq_take_drop,
      takeWhile_append_stop _ ']' (by decide) i _ ?hall2,
      dropWhile_append_stop _ ']' (by decide) i _ ?hall2]
    case hall2 =>
      intro c hc
      exact decide_eq_true (fun hcc => hi (hcc ▸ hc))
  simp only [tryActionAt, h1, h2]
  simp [hine, trimList_cons_space]

/-- `findAction` on a well-formed `Action: name[input]` reply. -/
theorem findAction_wf (n i : List Char) (hn : '[' ∉ n) (hi : ']' ∉ i)
    (hine : i ≠ []) :
    findAction (actionReply n i) = some (trimList n, trimList i) := by
  have hrep : actionReply n i =
      'A' :: 'c' :: 't' :: 'i' :: 'o' :: 'n' :: ':' ::
        (' ' :: (n ++ '[' :: (i ++ [']']))) := by
    simp [actionReply]
  rw [hrep, findAction]
  have hcond : (("Action:").data).isPrefixOf
      ('A' :: 'c' :: 't' :: 'i' :: 'o' :: 'n' :: ':' ::
        (' ' :: (n ++ '[' :: (i ++ [']'])))) = true := rfl
  rw [if_pos hcond]
  have hdrop : List.drop 7
      ('A' :: 'c' :: 't' :: 'i' :: 'o' :: 'n' :: ':' ::
        (' ' :: (n ++ '[' :: (i ++ [']'])))) =
      ' ' :: (n ++ '[' :: (i ++ [']'])) := rfl
  rw [hdrop, tryActionAt_eval n i hn hi hine]

/-- Claim C5: tool dispatch never throws out of the agent loop.  An
unregistered tool name yields a `Tool "<name>" not found` observation and the
loop continues stepping; a throwing tool yields an `Error: <message>`
observation and the loop continues stepping. -/
theorem c5_dispatch_absorbs_failures (tools : List Tool)
    (replies : Nat → Except (List Char) (List Char)) (fuel idx : Nat)
    (msgs : List Message) (lastObs pa r nm inp : List Char)
    (hrep : replies idx = Except.ok r)
    (hans : parseAnswer r = none)
    (hact : findAction r = some (nm, inp)) :
    (tools.find? (fun t => lowerStr t.name = lowerStr nm) = none →
       loop tools replies (fuel + 1) idx msgs lastObs pa =
         mkCont []
           (loop tools replies fuel (idx + 1)
             (msgs ++ [⟨Role.assistant, r⟩, ⟨Role.system, obsMsg (toolNotFound nm)⟩])
             lastObs (paUpdate r pa))) ∧
    (∀ (tool : Tool) (m : List Char),
       tools.find? (fun t => lowerStr t.name = lowerStr nm) = some tool →
       tool.run inp = Except.error m →
       loop tools replies (fuel + 1) idx msgs lastObs pa =
         mkCont [(nm, inp)]
           (loop tools replies fuel (idx + 1)
             (msgs ++ [⟨Role.assistant, r⟩, ⟨Role.system, obsMsg (errObs m)⟩])
             lastObs (paUpdate r pa))) := by
  have htr : trimList r ≠ [] := trim_ne_of_findAction hact
  constructor
  · intro hfind
    have hiter : iter tools (replies idx) msgs lastObs pa =
        IterOut.next
          (msgs ++ [⟨Role.assistant, r⟩, ⟨Role.system, obsMsg (toolNotFound nm)⟩])
          lastObs (paUpdate r pa) [] := by
      rw [hrep]
      simp [iter, iterOk, iterCont, dispatchStep, htr, hans, hact, hfind]
    simp [loop, hiter]
  · intro tool m hfind hrun
    have hiter : iter tools (replies idx) msgs lastObs pa =
        IterOut.next
          (msgs ++ [⟨Role.assistant, r⟩, ⟨Role.system, obsMsg (errObs m)⟩])
          lastObs (paUpdate r pa) [(nm, inp)] := by
      rw [hrep]
      simp [iter, iterOk, iterCont, dispatchStep, htr, hans, hact, hfind, hrun]
    simp [loop, hiter]

/-- Witness for C5: an unknown tool name, then a throwing tool. -/
theorem c5_dispatch_absorbs_failures_witness :
    loop [boomT] c5reps 1 0 [] [] [] =
      mkCont []
        (loop [boomT] c5reps 0 1
          ([] ++ [⟨Role.assistant, (("Action: Missing[x]").data)⟩,
                  ⟨Role.system, obsMsg (toolNotFound (("Missing").data))⟩])
          [] (paUpdate (("Action: Missing[x]").data) [])) ∧
    loop [boomT] c5reps 1 1 [] [] [] =
      mkCont [((("Boom").data), (("y").data))]
        (loop [boomT] c5reps 0 2
          ([] ++ [⟨Role.assistant, (("Action: Boom[y]").data)⟩,
                  ⟨Role.system, obsMsg (errObs (("boom failed").data))⟩])
          [] (paUpdate (("Action: Boom[y]").data) [])) :=
  ⟨(c5_dispatch_absorbs_failures [boomT] c5reps 0 0 [] [] []
      (("Action: Missing[x]").data) (("Missing").data) (("x").data)
      rfl (by decide) (by decide)).1 rfl,
   (c5_dispatch_absorbs_failures [boomT] c5reps 0 1 [] [] []
      (("Action: Boom[y]").data) (("Boom").data) (("y").data)
      rfl (by decide) (by decide)).2 boomT (("boom failed").data) rfl rfl⟩

/-- Counterexample to C6 as stated: for the reply `Action: Echo[ hi ]` the
characters inside the first bracket pair are `" hi "`, but the tool is
invoked with the trimmed text `"hi"` — the input is not forwarded verbatim. -/
theorem c6_counterexample :
    iter [echoT] (Except.ok (("Action: Echo[ hi ]").data)) [] [] [] =
      IterOut.next
        [⟨Role.assistant, (("Action: Echo[ hi ]").data)⟩,
         ⟨Role.system, (("Observation: E:hi").data)⟩]
        (("E:hi").data) [] [((("Echo").data), (("hi").data))] ∧
    (("hi").data : List Char) ≠ (" hi ").data :=
  ⟨rfl, by decide⟩

/-- Claim C6 (amended): for a well-formed `Action: name[input]` reply with a
registered tool, the loop invokes that tool with the TRIMMED contents of the
first bracket pair (leading/trailing whitespace removed, per the source's
`.trim()` at line 336), records the result as the last observation, and
appends it as the observation message. -/
theorem c6_trimmed_input (tools : List Tool)
    (replies : Nat → Except (List Char) (List Char)) (fuel idx : Nat)
    (msgs : List Message) (lastObs pa n i : List Char) (tool : Tool)
    (res : List Char)
    (hn : '[' ∉ n) (hi : ']' ∉ i) (hine : i ≠ [])
    (hrep : replies idx = Except.ok (actionReply n i))
    (hans : parseAnswer (actionReply n i) = none)
    (hfind : tools.find? (fun t => lowerStr t.name = lowerStr (trimList n)) = some tool)
    (hrun : tool.run (trimList i) = Except.ok res) :
    loop tools replies (fuel + 1) idx msgs lastObs pa =
      mkCont [(trimList n, trimList i)]
        (loop tools replies fuel (idx + 1)
          (msgs ++ [⟨Role.assistant, actionReply n i⟩, ⟨Role.system, obsMsg res⟩])
          res (paUpdate (actionReply n i) pa)) := by
  have hact : findAction (actionReply n i) = some (trimList n, trimList i) :=
    findAction_wf n i hn hi hine
  have htr : trimList (actionReply n i) ≠ [] := trim_ne_of_findAction hact
  have hiter : iter tools (replies idx) msgs lastObs pa =
      IterOut.next
        (msgs ++ [⟨Role.assistant, actionReply n i⟩, ⟨Role.system, obsMsg res⟩])
        res (paUpdate (actionReply n i) pa) [(trimList n, trimList i)] := by
    rw [hrep]
    simp [iter, iterOk, iterCont, dispatchStep, htr, hans, hact, hfind, hrun]
  simp [loop, hiter]

/-- Witness for C6 (amended): input `" 2+2 "` reaches the tool as `"2+2"`. -/
theorem c6_trimmed_input_witness :
    loop [echoT] c6reps 1 0 [] [] [] =
      mkCont [(trimList (("Echo").data), trimList ((" 2+2 ").data))]
        (loop [echoT] c6reps 0 1
          ([] ++ [⟨Role.assistant, actionReply (("Echo").data) ((" 2+2 ").data)⟩,
                  ⟨Role.system, obsMsg (("E:2+2").data)⟩])
          (("E:2+2").data) (paUpdate (actionReply (("Echo").data) ((" 2+2 ").data)) [])) :=
  c6_trimmed_input [echoT] c6reps 0 0 [] [] [] (("Echo").data) ((" 2+2 ").data)
    echoT (("E:2+2").data) (by decide) (by decide) (by decide) rfl (by decide) rfl rfl

/-- Claim C10: whenever tool dispatch continues the loop, the transcript
gains exactly the assistant reply and one message with role `system` whose
content is `Observation: ` followed by the observation text — never a `user`
or `assistant` message for the observation. -/
theorem c10_observation_role (tools : List Tool)
    (reply : Except (List Char) (List Char)) (msgs : List Message)
    (lastObs pa : List Char) (m' : List Message) (lo' pa' : List Char)
    (cs : List (List Char × List Char))
    (h : iter tools reply msgs lastObs pa = IterOut.next m' lo' pa' cs) :
    ∃ r o, reply = Except.ok r ∧
      m' = msgs ++ [⟨Role.assistant, r⟩, ⟨Role.system, obsMsg o⟩] :=
  iter_next_shape h

/-- Witness for C10 at a concrete dispatch. -/
theorem c10_observation_role_witness :
    ∃ r o, (Except.ok (("Action: Echo[b]").data) : Except (List Char) (List Char)) =
        Except.ok r ∧
      ([⟨Role.assistant, (("Action: Echo[b]").data)⟩,
        ⟨Role.system, (("Observation: E:b").data)⟩] : List Message) =
        [] ++ [⟨Role.assistant, r⟩, ⟨Role.system, obsMsg o⟩] :=
  c10_observation_role [echoT] (Except.ok (("Action: Echo[b]").data)) [] [] []
    [⟨Role.assistant, (("Action: Echo[b]").data)⟩,
     ⟨Role.system, (("Observation: E:b").data)⟩]
    (("E:b").data) [] [((("Echo").data), (("b").data))] rfl

-- ===== retry/backoff analysis of callOpenRouter =====

/-- The backoff delays slept by `callOpenRouter` when the `retries` counter
starts at `r` and `N` further failed attempts occur: `RETRY_DELAY_MS`
multiplied by the successive values of the incremented counter. -/
def delaysFrom (r : Nat) : Nat → List Nat
  | 0 => []
  | n + 1 => RETRY_DELAY_MS * (r + 1) :: delaysFrom (r + 1) n

/-- `delaysFrom` in closed form: the delay before the `j`-th retry is the
base delay times the attempt number. -/
theorem delaysFrom_eq_map :
    ∀ (N r : Nat), delaysFrom r N =
      (List.range N).map (fun j => RETRY_DELAY_MS * (r + 1 + j)) := by
  intro N
  induction N with
  | zero => intro r; simp [delaysFrom]
  | succ n ih =>
    intro r
    rw [delaysFrom, List.range_succ_eq_map, List.map_cons, List.map_map]
    have ht : delaysFrom (r + 1) n =
        List.map ((fun j => RETRY_DELAY_MS * (r + 1 + j)) ∘ Nat.succ) (List.range n) := by
      rw [ih (r + 1)]
      apply List.map_congr_left
      intro a _
      simp only [Function.comp]
      congr 1
      omega
    rw [ht]

/-- Every delay produced from counter value `r` is at least the first one. -/
theorem mem_delaysFrom_lower :
    ∀ (N r x : Nat), x ∈ delaysFrom r N → RETRY_DELAY_MS * (r + 1) ≤ x := by
  intro N
  induction N with
  | zero => intro r x hx; simp [delaysFrom] at hx
  | succ n ih =>
    intro r x hx
    rw [delaysFrom] at hx
    rcases List.mem_cons.mp hx with h | h
    · rw [h]
    · have h1 := ih (r + 1) x h
      have h1a : RETRY_DELAY_MS * (r + 2) ≤ x := by
        rwa [show r + 1 + 1 = r + 2 by omega] at h1
      have h2 : RETRY_DELAY_MS * (r + 1) ≤ RETRY_DELAY_MS * (r + 2) := by
        simp only [RETRY_DELAY_MS]
        omega
      omega

/-- The backoff delays are strictly increasing. -/
theorem pairwise_delaysFrom :
    ∀ (N r : Nat), List.Pairwise (· < ·) (delaysFrom r N) := by
  intro N
  induction N with
  | zero => intro r; exact List.Pairwise.nil
  | succ n ih =>
    intro r
    rw [delaysFrom]
    refine List.Pairwise.cons ?_ (ih (r + 1))
    intro x hx
    have h1 := mem_delaysFrom_lower n (r + 1) x hx
    have h1a : RETRY_DELAY_MS * (r + 2) ≤ x := by
      rwa [show r + 1 + 1 = r + 2 by omega] at h1
    have h2 : RETRY_DELAY_MS * (r + 1) < RETRY_DELAY_MS * (r + 2) := by
      simp only [RETRY_DELAY_MS]
      omega
    omega

/-- The retry loop on `N` retryable failures followed by a success: `N + 1`
attempts, with the linearly growing backoff delays. -/
theorem callGo_ok (provider : Nat → HttpAttempt) (content : List Char) :
    ∀ (N fuel idx retries : Nat),
      (∀ j, j < N → isRetryable (provider (idx + j)) = true) →
      provider (idx + N) = HttpAttempt.ok content →
      retries + N ≤ MAX_RETRIES → N < fuel →
      callGo provider fuel idx retries =
        ⟨Except.ok content, N + 1, delaysFrom retries N⟩ := by
  intro N
  induction N with
  | zero =>
    intro fuel idx retries h1 h2 h3 h4
    cases fuel with
    | zero => omega
    | succ f =>
      rw [callGo, if_neg (show ¬ retries > MAX_RETRIES by omega)]
      rw [Nat.add_zero] at h2
      simp [h2, delaysFrom]
  | succ n ih =>
    intro fuel idx retries h1 h2 h3 h4
    cases fuel with
    | zero => omega
    | succ f =>
      have h0 : isRetryable (provider idx) = true := by
        have := h1 0 (by omega)
        rwa [Nat.add_zero] at this
      cases hp : provider idx with
      | ok c => rw [hp] at h0; simp [isRetryable] at h0
      | exn m => rw [hp] at h0; simp [isRetryable] at h0
      | err status body =>
        have hst : (status == 429 || decide (status ≥ 500)) = true := by
          rw [hp] at h0
          simpa [isRetryable] using h0
        have hih := ih f (idx + 1) (retries + 1)
          (by
            intro j hj
            have := h1 (j + 1) (by omega)
            rwa [show idx + (j + 1) = idx + 1 + j by omega] at this)
          (by rwa [show idx + 1 + n = idx + (n + 1) by omega])
          (by omega) (by omega)
        rw [callGo, if_neg (show ¬ retries > MAX_RETRIES by omega)]
        simp only [hp]
        rw [if_pos hst, if_pos (show retries + 1 ≤ MAX_RETRIES by omega)]
        simp only [hih, delaysFrom]

/-- Claim C7: for `N` consecutive retryable failures (429 or status ≥ 500)
followed by a success, with `N ≤ MAX_RETRIES`, `callOpenRouter` makes exactly
`N + 1` attempts, returns the successful reply, and sleeps strictly
increasing delays `RETRY_DELAY_MS * attemptNumber` before the retries. -/
theorem c7_retry_backoff (provider : Nat → HttpAttempt) (N : Nat)
    (content : List Char) (hN : N ≤ MAX_RETRIES)
    (hfail : ∀ j, j < N → isRetryable (provider j) = true)
    (hok : provider N = HttpAttempt.ok content) :
    callOpenRouter provider =
      ⟨Except.ok content, N + 1,
       (List.range N).map (fun j => RETRY_DELAY_MS * (j + 1))⟩ ∧
    List.Pairwise (· < ·) ((List.range N).map (fun j => RETRY_DELAY_MS * (j + 1))) := by
  have hmap : delaysFrom 0 N = (List.range N).map (fun j => RETRY_DELAY_MS * (j + 1)) := by
    rw [delaysFrom_eq_map]
    apply List.map_congr_left
    intro a _
    congr 1
    omega
  constructor
  · have hcall := callGo_ok provider content N (MAX_RETRIES + 2) 0 0
      (by intro j hj; simpa using hfail j hj)
      (by simpa using hok) (by omega) (by omega)
    rw [callOpenRouter, hcall, hmap]
  · rw [← hmap]
    exact pairwise_delaysFrom N 0

/-- Witness for C7 with two 429 responses before success. -/
theorem c7_retry_backoff_witness :
    callOpenRouter prov7 =
      ⟨Except.ok (("hi").data), 3,
       (List.range 2).map (fun j => RETRY_DELAY_MS * (j + 1))⟩ ∧
    List.Pairwise (· < ·) ((List.range 2).map (fun j => RETRY_DELAY_MS * (j + 1))) :=
  c7_retry_backoff prov7 2 (("hi").data) (by decide)
    (by
      intro j hj
      cases j with
      | zero => decide
      | succ j1 =>
        cases j1 with
        | zero => decide
        | succ j2 => omega)
    rfl

/-- Claim C4 (refuted; the code retries client errors): a provider returning
HTTP 400 on every attempt is retried like a 429 — `callOpenRouter` makes
`MAX_RETRIES + 1 = 4` attempts with backoff delays 1000, 2000 and 3000 ms,
because the `throw` for non-retryable statuses (line 229) sits inside the
`try` block and is caught and retried by the `catch` at line 234.  The claim
says no retry attempt and no backoff delay would occur. -/
theorem c4_client_error_retried :
    callOpenRouter (fun _ => HttpAttempt.err 400 (("Bad Request").data)) =
      ⟨Except.error (apiErrorMsg 400 (("Bad Request").data)), 4, [1000, 2000, 3000]⟩ :=
  rfl

/-- Claim C9 (amended): during one run the transcript is append-only, its
length grows by exactly one assistant message per completion call that
returns a non-empty reply plus exactly one observation message per tool
dispatch, and the number of completion calls is bounded by the step budget. -/
theorem c9_transcript_growth (tools : List Tool)
    (replies : Nat → Except (List Char) (List Char)) :
    ∀ (fuel idx : Nat) (msgs : List Message) (lastObs pa : List Char),
      (∃ suff, (loop tools replies fuel idx msgs lastObs pa).messages = msgs ++ suff) ∧
      (loop tools replies fuel idx msgs lastObs pa).messages.length =
        msgs.length + (loop tools replies fuel idx msgs lastObs pa).okReplies +
          (loop tools replies fuel idx msgs lastObs pa).dispatches ∧
      (loop tools replies fuel idx msgs lastObs pa).dispatches ≤
        (loop tools replies fuel idx msgs lastObs pa).okReplies ∧
      (loop tools replies fuel idx msgs lastObs pa).okReplies ≤
        (loop tools replies fuel idx msgs lastObs pa).completions ∧
      (loop tools replies fuel idx msgs lastObs pa).completions ≤ fuel := by
  intro fuel
  induction fuel with
  | zero =>
    intro idx msgs lastObs pa
    exact ⟨⟨[], by simp [loop]⟩, by simp [loop], by simp [loop], by simp [loop],
      by simp [loop]⟩
  | succ f ih =>
    intro idx msgs lastObs pa
    cases hiter : iter tools (replies idx) msgs lastObs pa with
    | done outc m' app =>
      have hl : loop tools replies (f + 1) idx msgs lastObs pa =
          ⟨outc, m', [], 1, if app then 1 else 0, 0⟩ := by
        rw [loop, hiter]
      rcases iter_done_shape hiter with ⟨happ, hm⟩ | ⟨happ, r, hrep, hm⟩
      · subst happ
        subst hm
        rw [hl]
        exact ⟨⟨[], by simp⟩, by simp, by simp, by simp, by simp⟩
      · subst happ
        subst hm
        rw [hl]
        exact ⟨⟨[⟨Role.assistant, r⟩], by simp⟩, by simp, by simp, by simp, by simp⟩
    | next m' lo' pa' cs =>
      obtain ⟨r, o, hrep, hm⟩ := iter_next_shape hiter
      have hl : loop tools replies (f + 1) idx msgs lastObs pa =
          mkCont cs (loop tools replies f (idx + 1) m' lo' pa') := by
        rw [loop, hiter]
      obtain ⟨⟨suff, hsuff⟩, hlen, hd, hok2, hcomp⟩ := ih (idx + 1) m' lo' pa'
      subst hm
      rw [hl]
      refine ⟨⟨[⟨Role.assistant, r⟩, ⟨Role.system, obsMsg o⟩] ++ suff, ?_⟩, ?_, ?_, ?_, ?_⟩
      · simp only [mkCont]
        rw [hsuff]
        simp
      · simp only [mkCont]
        rw [hlen]
        simp only [List.length_append]
        simp
        omega
      · simp only [mkCont]
        omega
      · simp only [mkCont]
        omega
      · simp only [mkCont]
        omega

/-- Counterexample to C9 as stated: one completion call that returns an
empty reply grows the transcript by zero messages, not by exactly one
assistant message per completion call. -/
theorem c9_counterexample :
    (runAgent [] emptyReplies (("q").data)).completions = 1 ∧
    (runAgent [] emptyReplies (("q").data)).messages = initMsgs [] (("q").data) ∧
    (initMsgs [] (("q").data)).length + (runAgent [] emptyReplies (("q").data)).completions ≠
      (runAgent [] emptyReplies (("q").data)).messages.length :=
  ⟨rfl, rfl, by decide⟩

/-- A finished run is inert under further scheduling. -/
theorem advanceN_keeps_finished (tools : List Tool)
    (replies : Nat → Except (List Char) (List Char)) (q : List Char) :
    ∀ (n : Nat) (out : RunOutcome) (g : List Char),
      advanceN tools replies q n (RunPhase.finished out, g) =
        (RunPhase.finished out, g) := by
  intro n
  induction n with
  | zero => intro out g; rfl
  | succ m ih =>
    intro out g
    rw [advanceN]
    exact ih out g

/-- A run stepped alone (no interleaving) reaches exactly the outcome of the
sequential loop started from the current shared `lastObservation`. -/
theorem advanceN_active_loop (tools : List Tool)
    (replies : Nat → Except (List Char) (List Char)) (q : List Char) :
    ∀ (fuel idx : Nat) (msgs : List Message) (pa g : List Char),
      (advanceN tools replies q (fuel + 1)
        (RunPhase.active ⟨msgs, pa, fuel, idx⟩, g)).1 =
      RunPhase.finished (loop tools replies fuel idx msgs g pa).outcome := by
  intro fuel
  induction fuel with
  | zero =>
    intro idx msgs pa g
    rfl
  | succ f ih =>
    intro idx msgs pa g
    show (advanceN tools replies q (f + 1)
      (advance tools replies q g (RunPhase.active ⟨msgs, pa, f + 1, idx⟩))).1 = _
    cases hiter : iter tools (replies idx) msgs g pa with
    | done outc m' app =>
      have ha : advance tools replies q g (RunPhase.active ⟨msgs, pa, f + 1, idx⟩) =
          (RunPhase.finished outc, g) := by
        simp only [advance]
        rw [hiter]
      rw [ha, advanceN_keeps_finished]
      have hl : loop tools replies (f + 1) idx msgs g pa =
          ⟨outc, m', [], 1, if app then 1 else 0, 0⟩ := by
        rw [loop, hiter]
      rw [hl]
    | next m' lo' pa' cs =>
      have ha : advance tools replies q g (RunPhase.active ⟨msgs, pa, f + 1, idx⟩) =
          (RunPhase.active ⟨m', pa', f, idx + 1⟩, lo') := by
        simp only [advance]
        rw [hiter]
      rw [ha]
      have hl : loop tools replies (f + 1) idx msgs g pa =
          mkCont cs (loop tools replies f (idx + 1) m' lo' pa') := by
        rw [loop, hiter]
      rw [hl]
      rw [show (mkCont cs (loop tools replies f (idx + 1) m' lo' pa')).outcome =
          (loop tools replies f (idx + 1) m' lo' pa').outcome from rfl]
      exact ih (idx + 1) m' pa' lo'

/-- Claim C8 (amended): each invocation owns its own transcript and partial
answer, and a run executed without interleaving is unaffected by whatever
value other (completed or pending) runs left in the shared module-level
`lastObservation`: started from ANY global value `g`, it finishes with
exactly the sequential `runAgent` outcome, because line 263 resets the
global at run start. -/
theorem c8_run_isolation (tools : List Tool)
    (replies : Nat → Except (List Char) (List Char)) (q g : List Char) :
    (advanceN tools replies q (MAX_STEPS + 2) (RunPhase.pending, g)).1 =
      RunPhase.finished ((runAgent tools replies q).outcome) := by
  show (advanceN tools replies q (MAX_STEPS + 1)
      (advance tools replies q g RunPhase.pending)).1 = _
  show (advanceN tools replies q (MAX_STEPS + 1)
      (RunPhase.active ⟨initMsgs tools q, [], MAX_STEPS, 0⟩, [])).1 = _
  exact advanceN_active_loop tools replies q MAX_STEPS 0 (initMsgs tools q) [] []

/-- Counterexample to C8 as stated: `lastObservation` IS shared mutable
state between two in-flight runs.  Interleaving run 1's start (which resets
the shared global, line 263) between run 2's tool step and run 2's
whitespace-only answer destroys run 2's fallback observation: run 2 then
returns the raw text `Answer:` instead of the fallback-prefixed observation
it returns when executed alone with the same scripts. -/
theorem c8_counterexample :
    (sysExec [echoT] c8rep1 c8rep2 (("q1").data) (("q2").data)
        [false, false, true, false]
        ⟨[], RunPhase.pending, RunPhase.pending⟩).r2 =
      RunPhase.finished (RunOutcome.answer (("Answer:").data)) ∧
    (runAgent [echoT] c8rep2 (("q2").data)).outcome =
      RunOutcome.answer (obsFallback (("E:b").data)) ∧
    RunOutcome.answer (("Answer:").data) ≠
      RunOutcome.answer (obsFallback (("E:b").data)) :=
  ⟨rfl, rfl, by decide⟩

/-- Witness for C3: reply `"Answer:    "` with prior observation `"42"` and a
non-empty partial answer resolves to the fallback-prefixed `"42"`, which is
non-empty. -/
theorem c3_empty_answer_fallback_witness :
    iter [] (Except.ok (("Answer:    ").data)) [] (("42").data) (("thoughts").data) =
      IterOut.done (RunOutcome.answer (obsFallback (("42").data)))
        ([] ++ [⟨Role.assistant, (("Answer:    ").data)⟩]) true ∧
    obsFallback (("42").data) ≠ [] :=
  ⟨(c3_empty_answer_fallback [] (("Answer:    ").data) [] (("42").data)
      (("thoughts").data) (by decide)).1 (by decide),
   (c3_empty_answer_fallback [] (("Answer:    ").data) [] (("42").data)
      (("thoughts").data) (by decide)).2 (obsFallback (("42").data))
     ([] ++ [⟨Role.assistant, (("Answer:    ").data)⟩]) true
     ((c3_empty_answer_fallback [] (("Answer:    ").data) [] (("42").data)
        (("thoughts").data) (by decide)).1 (by decide))⟩
